import Mathlib

set_option maxHeartbeats 1000000
set_option maxRecDepth 10000

namespace TokenSwap

/-- Largest value representable by a Rust u64, the width of every token
amount and balance in the program. -/
def U64_MAX : Nat := 2 ^ 64 - 1

/-- Embedding of u64::checked_mul: the product when it fits in a u64,
none on overflow. -/
def checked_mul (a b : Nat) : Option Nat :=
  if a * b ≤ U64_MAX then some (a * b) else none

/-- Embedding of u64::checked_add: the sum when it fits in a u64,
none on overflow. -/
def checked_add (a b : Nat) : Option Nat :=
  if a + b ≤ U64_MAX then some (a + b) else none

/-- Embedding of u64::checked_div: floor division, none when the
divisor is zero. -/
def checked_div (a b : Nat) : Option Nat :=
  if b = 0 then none else some (a / b)

instance {ε α : Type} [DecidableEq ε] [DecidableEq α] : DecidableEq (Except ε α) :=
  fun x y =>
    match x, y with
    | .error a, .error b =>
      if h : a = b then isTrue (by rw [h])
      else isFalse (by intro hc; cases hc; exact h rfl)
    | .error _, .ok _ => isFalse (by intro hc; cases hc)
    | .ok _, .error _ => isFalse (by intro hc; cases hc)
    | .ok a, .ok b =>
      if h : a = b then isTrue (by rw [h])
      else isFalse (by intro hc; cases hc; exact h rfl)

/-- Errors a swap call can surface. MathOverflow and SlippageTooHigh are
the two variants of the source program's SwapError enum; TransferError
models an error propagated from the external token program on either
transfer leg (insufficient balance or destination overflow). -/
inductive SwapError
  | MathOverflow
  | SlippageTooHigh
  | TransferError
deriving DecidableEq, Repr

/-- Embedding of calculate_swap_output from src/programs/swap-2/src/lib.rs:
numerator = amount_in.checked_mul(reserve_out), denominator =
reserve_in.checked_add(amount_in), amount_out = numerator.checked_div(denominator),
each failing with MathOverflow when the checked operation returns None. -/
def calculate_swap_output (amount_in reserve_in reserve_out : Nat) :
    Except SwapError Nat :=
  match checked_mul amount_in reserve_out with
  | none => .error .MathOverflow
  | some numerator =>
    match checked_add reserve_in amount_in with
    | none => .error .MathOverflow
    | some denominator =>
      match checked_div numerator denominator with
      | none => .error .MathOverflow
      | some amount_out => .ok amount_out

/-- The four token accounts a swap or deposit touches: the pool's two
vaults and the user's two token accounts. -/
inductive AccountId
  | vaultA
  | vaultB
  | userTokenA
  | userTokenB
deriving DecidableEq, Repr

/-- Who signs a transfer: the user, or the pool via its PDA seeds
(new_with_signer in the source). -/
inductive Authority
  | user
  | pool
deriving DecidableEq, Repr

/-- One token::transfer CPI issued by the program: source account,
destination account, amount, and the signing authority. -/
structure TransferIx where
  src : AccountId
  dest : AccountId
  amount : Nat
  authority : Authority
deriving DecidableEq, Repr

/-- Balances of the four token accounts involved in a swap or deposit.
vault_a and vault_b are the pool's reserves (TokenAccount.amount in the
source); user_token_a and user_token_b are the trader's accounts. -/
structure LedgerState where
  vault_a : Nat
  vault_b : Nat
  user_token_a : Nat
  user_token_b : Nat
deriving DecidableEq, Repr

/-- Balance of one account in the ledger state. -/
def getBal (s : LedgerState) : AccountId → Nat
  | .vaultA => s.vault_a
  | .vaultB => s.vault_b
  | .userTokenA => s.user_token_a
  | .userTokenB => s.user_token_b

/-- Ledger state with one account's balance replaced. -/
def setBal (s : LedgerState) : AccountId → Nat → LedgerState
  | .vaultA, v => { s with vault_a := v }
  | .vaultB, v => { s with vault_b := v }
  | .userTokenA, v => { s with user_token_a := v }
  | .userTokenB, v => { s with user_token_b := v }

/-- Semantics of the external token program's transfer: succeeds when the
source holds at least the amount and the destination balance stays within
u64, debiting the source and crediting the destination. -/
def transfer (s : LedgerState) (src dest : AccountId) (amount : Nat) :
    Option LedgerState :=
  if amount ≤ getBal s src ∧ getBal s dest + amount ≤ U64_MAX then
    some (setBal (setBal s src (getBal s src - amount)) dest (getBal s dest + amount))
  else
    none

/-- Reserve selection of the swap handler (lines 52-56 of the source):
calculate_swap_output on (vault_a, vault_b) when a_to_b, on
(vault_b, vault_a) otherwise. -/
def swapQuote (s : LedgerState) (amount_in : Nat) (a_to_b : Bool) :
    Except SwapError Nat :=
  if a_to_b then
    calculate_swap_output amount_in s.vault_a s.vault_b
  else
    calculate_swap_output amount_in s.vault_b s.vault_a

/-- Embedding of the swap handler: quote the output from the current vault
balances, require amount_out >= minimum_amount_out (SlippageTooHigh
otherwise), then transfer amount_in from the user's in-side account to the
in-side vault signed by the user, and amount_out from the out-side vault to
the user's out-side account signed by the pool. Returns the outcome, the
resulting ledger state (unchanged on any error, the host reverting a failed
transaction atomically), and the list of transfers executed. -/
def swap (s : LedgerState) (amount_in minimum_amount_out : Nat) (a_to_b : Bool) :
    Except SwapError Nat × LedgerState × List TransferIx :=
  match swapQuote s amount_in a_to_b with
  | .error e => (.error e, s, [])
  | .ok amount_out =>
    if minimum_amount_out ≤ amount_out then
      if a_to_b then
        match transfer s .userTokenA .vaultA amount_in with
        | none => (.error .TransferError, s, [])
        | some s1 =>
          match transfer s1 .vaultB .userTokenB amount_out with
          | none => (.error .TransferError, s, [])
          | some s2 =>
            (.ok amount_out, s2,
              [⟨.userTokenA, .vaultA, amount_in, .user⟩,
               ⟨.vaultB, .userTokenB, amount_out, .pool⟩])
      else
        match transfer s .userTokenB .vaultB amount_in with
        | none => (.error .TransferError, s, [])
        | some s1 =>
          match transfer s1 .vaultA .userTokenA amount_out with
          | none => (.error .TransferError, s, [])
          | some s2 =>
            (.ok amount_out, s2,
              [⟨.userTokenB, .vaultB, amount_in, .user⟩,
               ⟨.vaultA, .userTokenA, amount_out, .pool⟩])
    else
      (.error .SlippageTooHigh, s, [])

/-- Embedding of add_liquidity: transfer amount_a from the user's A account
to vault_a and amount_b from the user's B account to vault_b, both signed by
the user; no other check is performed. State is unchanged on error (host
atomicity). -/
def add_liquidity (s : LedgerState) (amount_a amount_b : Nat) :
    Except SwapError Unit × LedgerState × List TransferIx :=
  match transfer s .userTokenA .vaultA amount_a with
  | none => (.error .TransferError, s, [])
  | some s1 =>
    match transfer s1 .userTokenB .vaultB amount_b with
    | none => (.error .TransferError, s, [])
    | some s2 =>
      (.ok (), s2,
        [⟨.userTokenA, .vaultA, amount_a, .user⟩,
         ⟨.userTokenB, .vaultB, amount_b, .user⟩])

/-- All four balances fit in a u64, as they do in the source where every
TokenAccount.amount is a u64. -/
def BoundedState (s : LedgerState) : Prop :=
  s.vault_a ≤ U64_MAX ∧ s.vault_b ≤ U64_MAX ∧
  s.user_token_a ≤ U64_MAX ∧ s.user_token_b ≤ U64_MAX

instance (s : LedgerState) : Decidable (BoundedState s) := by
  unfold BoundedState; infer_instance

/-- The Pool account of the source: creator, the two mint identifiers and
the PDA bump (the bump is abstracted to 0 here, its value playing no role
in the accounting). Mints and authorities are abstracted to Nat identifiers. -/
structure Pool where
  authority : Nat
  mint_a : Nat
  mint_b : Nat
  bump : Nat
deriving DecidableEq, Repr

/-- Address of a program-derived account. The source derives the pool
address from the seeds [b"pool", mint_a, mint_b]; assuming the derivation is
collision-free, the address is modelled as the ordered pair of mints itself. -/
abbrev PoolAddr := Nat × Nat

/-- Deterministic pool address from the seeds [b"pool", mint_a, mint_b] of
the InitializePool accounts: a function of the mints in the given order
(the source never sorts them). -/
def poolAddress (mint_a mint_b : Nat) : PoolAddr := (mint_a, mint_b)

/-- Errors of the pool registry. AlreadyExists is the failure of Anchor's
init constraint when the derived account already exists. -/
inductive RegistryError
  | AlreadyExists
deriving DecidableEq, Repr

/-- Embedding of initialize_pool together with the InitializePool account
constraints: the pool account is created at the address derived from
[b"pool", mint_a, mint_b], failing with AlreadyExists when an account
already lives at that address (Anchor init semantics), and is filled with
the authority and the two mints. -/
def initialize_pool (reg : List (PoolAddr × Pool)) (authority mint_a mint_b : Nat) :
    Except RegistryError (List (PoolAddr × Pool)) :=
  if reg.any (fun e => e.1 = poolAddress mint_a mint_b) then
    .error .AlreadyExists
  else
    .ok ((poolAddress mint_a mint_b, ⟨authority, mint_a, mint_b, 0⟩) :: reg)

theorem calc_eq (a rin rout : Nat) :
    calculate_swap_output a rin rout =
      if a * rout ≤ U64_MAX then
        if rin + a ≤ U64_MAX then
          if rin + a = 0 then .error .MathOverflow
          else .ok (a * rout / (rin + a))
        else .error .MathOverflow
      else .error .MathOverflow := by
  unfold calculate_swap_output checked_mul checked_add checked_div
  by_cases h1 : a * rout ≤ U64_MAX <;> by_cases h2 : rin + a ≤ U64_MAX <;>
    by_cases h3 : rin + a = 0 <;> simp [h1, h2, h3]

theorem calc_ok_iff (a rin rout out : Nat) :
    calculate_swap_output a rin rout = .ok out ↔
      a * rout ≤ U64_MAX ∧ rin + a ≤ U64_MAX ∧ 0 < rin + a ∧
        out = a * rout / (rin + a) := by
  rw [calc_eq]
  split_ifs with h1 h2 h3
  · simp_all
  · simp_all [eq_comm]; omega
  · simp_all
  · simp_all

theorem floor_le_reserve (a rin rout : Nat) (hpos : 0 < rin + a) :
    a * rout / (rin + a) ≤ rout := by
  have h1 : a * rout ≤ (rin + a) * rout :=
    Nat.mul_le_mul_right rout (Nat.le_add_left a rin)
  calc a * rout / (rin + a) ≤ (rin + a) * rout / (rin + a) :=
        Nat.div_le_div_right h1
    _ = rout := Nat.mul_div_cancel_left rout hpos

theorem calc_output_le (a rin rout out : Nat)
    (h : calculate_swap_output a rin rout = .ok out) : out ≤ rout := by
  obtain ⟨-, -, hpos, hout⟩ := (calc_ok_iff a rin rout out).mp h
  rw [hout]
  exact floor_le_reserve a rin rout hpos

theorem product_grows (rin rout a out : Nat) (hpos : 0 < rin + a)
    (hout : out = a * rout / (rin + a)) :
    rin * rout ≤ (rin + a) * (rout - out) := by
  have h1 : out * (rin + a) ≤ a * rout := by
    rw [hout]; exact Nat.div_mul_le_self _ _
  have h2 : out ≤ rout := by
    rw [hout]; exact floor_le_reserve a rin rout hpos
  zify [h2]
  zify at h1
  nlinarith [h1]

theorem transfer_some (s : LedgerState) (src dest : AccountId) (amt : Nat)
    (s' : LedgerState) (h : transfer s src dest amt = some s') :
    amt ≤ getBal s src ∧ getBal s dest + amt ≤ U64_MAX ∧
      s' = setBal (setBal s src (getBal s src - amt)) dest (getBal s dest + amt) := by
  unfold transfer at h
  split_ifs at h with hc
  exact ⟨hc.1, hc.2, (Option.some.inj h).symm⟩

theorem swap_true_eq (s : LedgerState) (a m : Nat) :
    swap s a m true =
      match calculate_swap_output a s.vault_a s.vault_b with
      | .error e => (.error e, s, [])
      | .ok out =>
        if m ≤ out then
          match transfer s .userTokenA .vaultA a with
          | none => (.error .TransferError, s, [])
          | some s1 =>
            match transfer s1 .vaultB .userTokenB out with
            | none => (.error .TransferError, s, [])
            | some s2 =>
              (.ok out, s2,
                [⟨.userTokenA, .vaultA, a, .user⟩,
                 ⟨.vaultB, .userTokenB, out, .pool⟩])
        else (.error .SlippageTooHigh, s, []) := rfl

theorem swap_false_eq (s : LedgerState) (a m : Nat) :
    swap s a m false =
      match calculate_swap_output a s.vault_b s.vault_a with
      | .error e => (.error e, s, [])
      | .ok out =>
        if m ≤ out then
          match transfer s .userTokenB .vaultB a with
          | none => (.error .TransferError, s, [])
          | some s1 =>
            match transfer s1 .vaultA .userTokenA out with
            | none => (.error .TransferError, s, [])
            | some s2 =>
              (.ok out, s2,
                [⟨.userTokenB, .vaultB, a, .user⟩,
                 ⟨.vaultA, .userTokenA, out, .pool⟩])
        else (.error .SlippageTooHigh, s, []) := rfl

theorem swap_ok_true_inv (s : LedgerState) (a m out : Nat) (s' : LedgerState)
    (txs : List TransferIx) (h : swap s a m true = (.ok out, s', txs)) :
    calculate_swap_output a s.vault_a s.vault_b = .ok out ∧ m ≤ out ∧
      s' = ⟨s.vault_a + a, s.vault_b - out, s.user_token_a - a, s.user_token_b + out⟩ ∧
      txs = [⟨.userTokenA, .vaultA, a, .user⟩, ⟨.vaultB, .userTokenB, out, .pool⟩] := by
  rw [swap_true_eq] at h
  cases hq : calculate_swap_output a s.vault_a s.vault_b with
  | error e => rw [hq] at h; simp at h
  | ok q =>
    rw [hq] at h
    simp only [] at h
    by_cases hm : m ≤ q
    · rw [if_pos hm] at h
      cases ht1 : transfer s .userTokenA .vaultA a with
      | none => rw [ht1] at h; simp at h
      | some s1 =>
        rw [ht1] at h
        simp only [] at h
        cases ht2 : transfer s1 .vaultB .userTokenB q with
        | none => rw [ht2] at h; simp at h
        | some s2 =>
          rw [ht2] at h
          simp only [] at h
          simp only [Prod.mk.injEq, Except.ok.injEq] at h
          obtain ⟨hqo, hs2, htxs⟩ := h
          subst hqo
          obtain ⟨-, -, hs1⟩ := transfer_some _ _ _ _ _ ht1
          obtain ⟨-, -, hs2e⟩ := transfer_some _ _ _ _ _ ht2
          subst hs1
          refine ⟨rfl, hm, ?_, htxs.symm⟩
          rw [← hs2, hs2e]
          simp [getBal, setBal]
    · rw [if_neg hm] at h
      simp at h

theorem swap_ok_false_inv (s : LedgerState) (a m out : Nat) (s' : LedgerState)
    (txs : List TransferIx) (h : swap s a m false = (.ok out, s', txs)) :
    calculate_swap_output a s.vault_b s.vault_a = .ok out ∧ m ≤ out ∧
      s' = ⟨s.vault_a - out, s.vault_b + a, s.user_token_a + out, s.user_token_b - a⟩ ∧
      txs = [⟨.userTokenB, .vaultB, a, .user⟩, ⟨.vaultA, .userTokenA, out, .pool⟩] := by
  rw [swap_false_eq] at h
  cases hq : calculate_swap_output a s.vault_b s.vault_a with
  | error e => rw [hq] at h; simp at h
  | ok q =>
    rw [hq] at h
    simp only [] at h
    by_cases hm : m ≤ q
    · rw [if_pos hm] at h
      cases ht1 : transfer s .userTokenB .vaultB a with
      | none => rw [ht1] at h; simp at h
      | some s1 =>
        rw [ht1] at h
        simp only [] at h
        cases ht2 : transfer s1 .vaultA .userTokenA q with
        | none => rw [ht2] at h; simp at h
        | some s2 =>
          rw [ht2] at h
          simp only [] at h
          simp only [Prod.mk.injEq, Except.ok.injEq] at h
          obtain ⟨hqo, hs2, htxs⟩ := h
          subst hqo
          obtain ⟨-, -, hs1⟩ := transfer_some _ _ _ _ _ ht1
          obtain ⟨-, -, hs2e⟩ := transfer_some _ _ _ _ _ ht2
          subst hs1
          refine ⟨rfl, hm, ?_, htxs.symm⟩
          rw [← hs2, hs2e]
          simp [getBal, setBal]
    · rw [if_neg hm] at h
      simp at h

theorem LedgerState.eta (s : LedgerState) :
    (⟨s.vault_a, s.vault_b, s.user_token_a, s.user_token_b⟩ : LedgerState) = s := rfl

theorem transfer_uA_vA (s : LedgerState) (amt : Nat) :
    transfer s .userTokenA .vaultA amt =
      if amt ≤ s.user_token_a ∧ s.vault_a + amt ≤ U64_MAX then
        some ⟨s.vault_a + amt, s.vault_b, s.user_token_a - amt, s.user_token_b⟩
      else none := by
  unfold transfer
  split_ifs with hc <;> simp_all [getBal, setBal]

theorem transfer_uB_vB (s : LedgerState) (amt : Nat) :
    transfer s .userTokenB .vaultB amt =
      if amt ≤ s.user_token_b ∧ s.vault_b + amt ≤ U64_MAX then
        some ⟨s.vault_a, s.vault_b + amt, s.user_token_a, s.user_token_b - amt⟩
      else none := by
  unfold transfer
  split_ifs with hc <;> simp_all [getBal, setBal]

theorem transfer_vA_uA (s : LedgerState) (amt : Nat) :
    transfer s .vaultA .userTokenA amt =
      if amt ≤ s.vault_a ∧ s.user_token_a + amt ≤ U64_MAX then
        some ⟨s.vault_a - amt, s.vault_b, s.user_token_a + amt, s.user_token_b⟩
      else none := by
  unfold transfer
  split_ifs with hc <;> simp_all [getBal, setBal]

theorem transfer_vB_uB (s : LedgerState) (amt : Nat) :
    transfer s .vaultB .userTokenB amt =
      if amt ≤ s.vault_b ∧ s.user_token_b + amt ≤ U64_MAX then
        some ⟨s.vault_a, s.vault_b - amt, s.user_token_a, s.user_token_b + amt⟩
      else none := by
  unfold transfer
  split_ifs with hc <;> simp_all [getBal, setBal]

theorem add_liquidity_eq (s : LedgerState) (aa ab : Nat) :
    add_liquidity s aa ab =
      if aa ≤ s.user_token_a ∧ s.vault_a + aa ≤ U64_MAX then
        if ab ≤ s.user_token_b ∧ s.vault_b + ab ≤ U64_MAX then
          (.ok (),
            ⟨s.vault_a + aa, s.vault_b + ab, s.user_token_a - aa, s.user_token_b - ab⟩,
            [⟨.userTokenA, .vaultA, aa, .user⟩, ⟨.userTokenB, .vaultB, ab, .user⟩])
        else (.error .TransferError, s, [])
      else (.error .TransferError, s, [])
      := by
  unfold add_liquidity
  rw [transfer_uA_vA]
  split_ifs with hc1 hc2
  · simp only []
    rw [transfer_uB_vB]
    simp only []
    rw [if_pos hc2]
  · simp only []
    rw [transfer_uB_vB]
    simp only []
    rw [if_neg hc2]
  · simp only []

/-- C1: for every successful swap the product of the two reserves is
non-decreasing: writing (reserve_in, reserve_out) for the reserves in the
direction of the trade, the post-swap reserves are
(reserve_in + amount_in, reserve_out - amount_out) with amount_out the value
computed by calculate_swap_output, and their product is at least
reserve_in * reserve_out. -/
theorem swap_product_nondecreasing (s : LedgerState) (a m out : Nat)
    (s' : LedgerState) (txs : List TransferIx) (dir : Bool)
    (h : swap s a m dir = (.ok out, s', txs)) :
    s.vault_a * s.vault_b ≤ s'.vault_a * s'.vault_b := by
  cases dir
  · obtain ⟨hq, -, hs', -⟩ := swap_ok_false_inv s a m out s' txs h
    obtain ⟨-, -, hpos, hout⟩ := (calc_ok_iff _ _ _ _).mp hq
    subst hs'
    have hg := product_grows s.vault_b s.vault_a a out hpos hout
    simp only []
    calc s.vault_a * s.vault_b = s.vault_b * s.vault_a := Nat.mul_comm _ _
      _ ≤ (s.vault_b + a) * (s.vault_a - out) := hg
      _ = (s.vault_a - out) * (s.vault_b + a) := Nat.mul_comm _ _
  · obtain ⟨hq, -, hs', -⟩ := swap_ok_true_inv s a m out s' txs h
    obtain ⟨-, -, hpos, hout⟩ := (calc_ok_iff _ _ _ _).mp hq
    subst hs'
    exact product_grows s.vault_a s.vault_b a out hpos hout

theorem swap_product_nondecreasing_witness :
    (LedgerState.mk 1000 1000 500 500).vault_a *
        (LedgerState.mk 1000 1000 500 500).vault_b ≤
      (LedgerState.mk 1100 910 400 590).vault_a *
        (LedgerState.mk 1100 910 400 590).vault_b :=
  swap_product_nondecreasing ⟨1000, 1000, 500, 500⟩ 100 0 90
    ⟨1100, 910, 400, 590⟩
    [⟨.userTokenA, .vaultA, 100, .user⟩, ⟨.vaultB, .userTokenB, 90, .pool⟩]
    true (by decide)

/-- C2: when none of the arithmetic steps overflows the u64 width and the
denominator is non-zero, the output computed by the swap handler equals
floor(amount_in * reserve_out / (reserve_in + amount_in)), with
(reserve_in, reserve_out) = (vault_a, vault_b) in the A-to-B direction and
(vault_b, vault_a) in the B-to-A direction. -/
theorem swap_output_is_floor (s : LedgerState) (a : Nat) :
    (a * s.vault_b ≤ U64_MAX → s.vault_a + a ≤ U64_MAX → 0 < s.vault_a + a →
      swapQuote s a true = .ok (a * s.vault_b / (s.vault_a + a))) ∧
    (a * s.vault_a ≤ U64_MAX → s.vault_b + a ≤ U64_MAX → 0 < s.vault_b + a →
      swapQuote s a false = .ok (a * s.vault_a / (s.vault_b + a))) := by
  constructor <;> intro h1 h2 h3 <;>
    simp [swapQuote, calc_eq, h1, h2, Nat.pos_iff_ne_zero.mp h3]

theorem swap_output_is_floor_witness :
    swapQuote ⟨1000, 1000, 500, 500⟩ 100 true = .ok (100 * 1000 / (1000 + 100)) :=
  (swap_output_is_floor ⟨1000, 1000, 500, 500⟩ 100).1 (by decide) (by decide)
    (by decide)

/-- C3: with amount_out the value the handler computes from the current
reserves, a call with amount_out < minimum_amount_out fails with
SlippageTooHigh, leaving the ledger unchanged with no transfer issued, and a
call with minimum_amount_out <= amount_out never fails with SlippageTooHigh;
the check sits between the computation of amount_out and the first transfer. -/
theorem slippage_enforcement (s : LedgerState) (a m : Nat) (dir : Bool)
    (out : Nat) (hq : swapQuote s a dir = .ok out) :
    (out < m → swap s a m dir = (.error .SlippageTooHigh, s, [])) ∧
    (m ≤ out → (swap s a m dir).1 ≠ .error .SlippageTooHigh) := by
  constructor
  · intro hlt
    unfold swap
    rw [hq]
    simp only []
    rw [if_neg (by omega)]
  · intro hle
    unfold swap
    rw [hq]
    simp only []
    rw [if_pos hle]
    cases dir
    · rw [if_neg Bool.false_ne_true]
      rw [transfer_uB_vB]
      by_cases hc1 : a ≤ s.user_token_b ∧ s.vault_b + a ≤ U64_MAX
      · rw [if_pos hc1]
        simp only []
        rw [transfer_vA_uA]
        by_cases hc2 : out ≤ s.vault_a ∧ s.user_token_a + out ≤ U64_MAX
        · rw [if_pos hc2]; simp
        · rw [if_neg hc2]; simp
      · rw [if_neg hc1]; simp
    · rw [if_pos rfl]
      rw [transfer_uA_vA]
      by_cases hc1 : a ≤ s.user_token_a ∧ s.vault_a + a ≤ U64_MAX
      · rw [if_pos hc1]
        simp only []
        rw [transfer_vB_uB]
        by_cases hc2 : out ≤ s.vault_b ∧ s.user_token_b + out ≤ U64_MAX
        · rw [if_pos hc2]; simp
        · rw [if_neg hc2]; simp
      · rw [if_neg hc1]; simp

theorem slippage_enforcement_witness :
    swap ⟨1000, 1000, 500, 500⟩ 100 91 true =
      (.error .SlippageTooHigh, ⟨1000, 1000, 500, 500⟩, []) :=
  (slippage_enforcement ⟨1000, 1000, 500, 500⟩ 100 91 true 90 (by decide)).1
    (by decide)

/-- C4: when amount_in * reserve_out exceeds the u64 range, or
reserve_in + amount_in exceeds the u64 range, or the denominator
reserve_in + amount_in is zero (reserves taken in the direction of the
trade), the swap call fails with MathOverflow, the ledger is unchanged and
no transfer is issued. -/
theorem overflow_fails_before_transfer (s : LedgerState) (a m : Nat) (dir : Bool)
    (h : U64_MAX < a * (if dir then s.vault_b else s.vault_a) ∨
         U64_MAX < (if dir then s.vault_a else s.vault_b) + a ∨
         (if dir then s.vault_a else s.vault_b) + a = 0) :
    swap s a m dir = (.error .MathOverflow, s, []) := by
  have hq : swapQuote s a dir = .error .MathOverflow := by
    cases dir <;>
      simp only [Bool.false_eq_true, if_false, if_true] at h ⊢ <;>
      · unfold swapQuote
        simp only [Bool.false_eq_true, if_false, if_true]
        rw [calc_eq]
        split_ifs <;> first | rfl | (exfalso; omega)
  unfold swap
  rw [hq]

theorem overflow_fails_before_transfer_witness :
    swap ⟨5, U64_MAX, 0, 0⟩ 2 0 true = (.error .MathOverflow, ⟨5, U64_MAX, 0, 0⟩, []) :=
  overflow_fails_before_transfer ⟨5, U64_MAX, 0, 0⟩ 2 0 true (Or.inl (by decide))

/-- C5: with reserves (1000, 1000) and amount_in = 100 in direction A-to-B
the computed output is 90 = floor(100000/1100); the swap with
minimum_amount_out = 91 fails with SlippageTooHigh leaving the ledger
unchanged, and the swap with minimum_amount_out = 90 succeeds and leaves the
reserves at (1100, 910). The user accounts hold 500 of each asset so both
transfer legs are funded. -/
theorem concrete_scenario :
    calculate_swap_output 100 1000 1000 = .ok 90 ∧
    swap ⟨1000, 1000, 500, 500⟩ 100 91 true =
      (.error .SlippageTooHigh, ⟨1000, 1000, 500, 500⟩, []) ∧
    (swap ⟨1000, 1000, 500, 500⟩ 100 90 true).1 = .ok 90 ∧
    (swap ⟨1000, 1000, 500, 500⟩ 100 90 true).2.1.vault_a = 1100 ∧
    (swap ⟨1000, 1000, 500, 500⟩ 100 90 true).2.1.vault_b = 910 := by
  decide

/-- C6 counterexample: the pool address is derived from the mints in the
order given, so after creating the pool for (mint 0, mint 1) a second
initialize_pool call with the arguments swapped does not fail with
AlreadyExists: it succeeds and creates a second, distinct pool for the same
unordered pair. -/
theorem pool_swapped_order_not_rejected :
    initialize_pool [] 7 0 1 = .ok [((0, 1), ⟨7, 0, 1, 0⟩)] ∧
    initialize_pool [((0, 1), ⟨7, 0, 1, 0⟩)] 8 1 0 ≠ .error .AlreadyExists ∧
    initialize_pool [((0, 1), ⟨7, 0, 1, 0⟩)] 8 1 0 =
      .ok [((1, 0), ⟨8, 1, 0, 0⟩), ((0, 1), ⟨7, 0, 1, 0⟩)] := by
  decide

/-- C6 amended: for every ordered pair of asset identifiers at most one pool
exists and its identity is deterministically derived from that ordered pair:
a second initialize_pool call with the mints in the same order fails with
AlreadyExists (a call with the arguments swapped instead creates a distinct
second pool, as the seeds are not sorted). -/
theorem pool_ordered_pair_unique (reg reg' : List (PoolAddr × Pool))
    (auth auth2 ma mb : Nat)
    (h : initialize_pool reg auth ma mb = .ok reg') :
    initialize_pool reg' auth2 ma mb = .error .AlreadyExists := by
  unfold initialize_pool at h ⊢
  split_ifs at h with hc
  have hr : reg' = (poolAddress ma mb, ⟨auth, ma, mb, 0⟩) :: reg :=
    (Except.ok.inj h).symm
  subst hr
  simp [poolAddress]

theorem pool_ordered_pair_unique_witness :
    initialize_pool [((0, 1), ⟨7, 0, 1, 0⟩)] 9 0 1 = .error .AlreadyExists :=
  pool_ordered_pair_unique [] [((0, 1), ⟨7, 0, 1, 0⟩)] 7 9 0 1 (by decide)

/-- C7: a round trip never profits the trader: if swapping x in the A-to-B
direction succeeds with output y, and immediately swapping y back in the
B-to-A direction on the resulting reserves succeeds with output z, then
z <= x. -/
theorem round_trip_no_profit (s s1 s2 : LedgerState) (x y z : Nat)
    (t1 t2 : List TransferIx)
    (h1 : swap s x 0 true = (.ok y, s1, t1))
    (h2 : swap s1 y 0 false = (.ok z, s2, t2)) :
    z ≤ x := by
  obtain ⟨hq1, -, hs1, -⟩ := swap_ok_true_inv s x 0 y s1 t1 h1
  obtain ⟨hq2, -, -, -⟩ := swap_ok_false_inv s1 y 0 z s2 t2 h2
  obtain ⟨-, -, hpos1, hy⟩ := (calc_ok_iff _ _ _ _).mp hq1
  subst hs1
  obtain ⟨-, -, hpos2, hz⟩ := (calc_ok_iff _ _ _ _).mp hq2
  simp only [] at hpos2 hz
  have hyb : y ≤ s.vault_b := by
    rw [hy]; exact floor_le_reserve x s.vault_a s.vault_b hpos1
  have hsub : s.vault_b - y + y = s.vault_b := Nat.sub_add_cancel hyb
  rw [hsub] at hpos2 hz
  have key : y * (s.vault_a + x) ≤ x * s.vault_b := by
    rw [hy]; exact Nat.div_mul_le_self _ _
  rw [hz]
  calc y * (s.vault_a + x) / s.vault_b ≤ x * s.vault_b / s.vault_b :=
        Nat.div_le_div_right key
    _ = x := Nat.mul_div_cancel x hpos2

theorem round_trip_no_profit_witness : 99 ≤ 100 :=
  round_trip_no_profit ⟨1000, 1000, 500, 500⟩ ⟨1100, 910, 400, 590⟩
    ⟨1001, 1000, 499, 500⟩ 100 90 99
    [⟨.userTokenA, .vaultA, 100, .user⟩, ⟨.vaultB, .userTokenB, 90, .pool⟩]
    [⟨.userTokenB, .vaultB, 90, .user⟩, ⟨.vaultA, .userTokenA, 99, .pool⟩]
    (by decide) (by decide)

/-- C8: add_liquidity issues exactly two transfers — amount_a from the
depositor's A account to vault_a and amount_b from the depositor's B account
to vault_b, both authorized by the depositor — returns nothing beyond
success or failure, and performs no proportionality check: success depends
only on the depositor's balances and the vaults' u64 capacity, never on the
ratio of the amounts to the existing reserves. -/
theorem add_liquidity_two_transfers (s : LedgerState) (amount_a amount_b : Nat) :
    (∀ s' txs, add_liquidity s amount_a amount_b = (.ok (), s', txs) →
      txs = [⟨.userTokenA, .vaultA, amount_a, .user⟩,
             ⟨.userTokenB, .vaultB, amount_b, .user⟩] ∧
      s' = ⟨s.vault_a + amount_a, s.vault_b + amount_b,
            s.user_token_a - amount_a, s.user_token_b - amount_b⟩) ∧
    ((add_liquidity s amount_a amount_b).1 = .ok () ↔
      amount_a ≤ s.user_token_a ∧ s.vault_a + amount_a ≤ U64_MAX ∧
      amount_b ≤ s.user_token_b ∧ s.vault_b + amount_b ≤ U64_MAX) := by
  rw [add_liquidity_eq]
  split_ifs with hc1 hc2
  · constructor
    · intro s' txs h
      simp only [Prod.mk.injEq] at h
      exact ⟨h.2.2.symm, h.2.1.symm⟩
    · constructor
      · intro _; exact ⟨hc1.1, hc1.2, hc2.1, hc2.2⟩
      · intro _; rfl
  · constructor
    · intro s' txs h
      simp at h
    · constructor
      · intro h; exact absurd h (by simp)
      · intro h; exact absurd ⟨h.2.2.1, h.2.2.2⟩ hc2
  · constructor
    · intro s' txs h
      simp at h
    · constructor
      · intro h; exact absurd h (by simp)
      · intro h; exact absurd ⟨h.1, h.2.1⟩ hc1

theorem add_liquidity_two_transfers_witness :
    (add_liquidity ⟨1000, 2000, 300, 400⟩ 3 4).1 = .ok () :=
  (add_liquidity_two_transfers ⟨1000, 2000, 300, 400⟩ 3 4).2.mpr (by decide)

/-- C9: whenever calculate_swap_output returns Ok amount_out, the output is
at most reserve_out; hence the outbound transfer of a swap never requests
more than the out-side vault holds, and reserve_out - amount_out does not
underflow (the subtraction is exact). -/
theorem output_never_exceeds_reserve (a rin rout out : Nat)
    (h : calculate_swap_output a rin rout = .ok out) :
    out ≤ rout ∧ rout - out + out = rout := by
  have hle := calc_output_le a rin rout out h
  exact ⟨hle, Nat.sub_add_cancel hle⟩

theorem output_never_exceeds_reserve_witness :
    (90 : Nat) ≤ 1000 ∧ 1000 - 90 + 90 = 1000 :=
  output_never_exceeds_reserve 100 1000 1000 90 (by decide)

/-- C10: swap does not require a positive input: with amount_in = 0 and
minimum_amount_out = 0, on a pool whose in-side reserve is positive the call
succeeds computing amount_out = 0, leaves every balance unchanged and issues
the two transfers with amount 0 rather than rejecting the degenerate trade. -/
theorem zero_amount_swap_succeeds (s : LedgerState) (dir : Bool)
    (hb : BoundedState s)
    (hpos : 0 < (if dir then s.vault_a else s.vault_b)) :
    swap s 0 0 dir =
      (.ok 0, s,
        if dir then
          [⟨.userTokenA, .vaultA, 0, .user⟩, ⟨.vaultB, .userTokenB, 0, .pool⟩]
        else
          [⟨.userTokenB, .vaultB, 0, .user⟩, ⟨.vaultA, .userTokenA, 0, .pool⟩]) := by
  obtain ⟨hba, hbb, hua, hub⟩ := hb
  cases dir
  · simp only [Bool.false_eq_true, if_false] at hpos ⊢
    rw [swap_false_eq]
    have hq : calculate_swap_output 0 s.vault_b s.vault_a = .ok 0 := by
      rw [calc_eq]
      rw [if_pos (by simp), if_pos (by omega),
        if_neg (by omega)]
      simp
    rw [hq]
    simp [transfer_uB_vB, transfer_vA_uA, hua, hub, hba, hbb, LedgerState.eta]
  · simp only [if_true] at hpos ⊢
    rw [swap_true_eq]
    have hq : calculate_swap_output 0 s.vault_a s.vault_b = .ok 0 := by
      rw [calc_eq]
      rw [if_pos (by simp), if_pos (by omega),
        if_neg (by omega)]
      simp
    rw [hq]
    simp [transfer_uA_vA, transfer_vB_uB, hua, hub, hba, hbb, LedgerState.eta]

theorem zero_amount_swap_succeeds_witness :
    swap ⟨1000, 1000, 500, 500⟩ 0 0 true =
      (.ok 0, ⟨1000, 1000, 500, 500⟩,
        [⟨.userTokenA, .vaultA, 0, .user⟩, ⟨.vaultB, .userTokenB, 0, .pool⟩]) :=
  zero_amount_swap_succeeds ⟨1000, 1000, 500, 500⟩ true (by decide) (by decide)

end TokenSwap
